import Mathlib

/-!
Verification development for the ALX Polly polling application.

The repository contains two vote-recording implementations:

1. The PL/pgSQL function `record_vote` in `src/schema.sql` (lines 242-282),
   operating on the tables `polls`, `poll_options`, `votes` of `schema.sql`
   (single-choice vs multiple-choice controlled by `allow_multiple_votes`,
   with `UNIQUE(poll_id, voter_id, option_id)` on `votes`).
2. The TypeScript server action `submitVote` in `src/unnamed/part_002`
   (lines 98-148), operating on the tables `polls` (with an
   `options text[]` column) and `votes` (with an `option_index int`
   column and a unique index on `(poll_id, user_id)`) of the README
   schema in `src/unnamed/part_000` (lines 38-88).

Both are embedded shallowly below.  Machine-irrelevant columns (`id`,
`created_at`, `question`, `description`, `is_public`, audit timestamps)
are omitted: no embedded operation reads them.  Identifiers (UUIDs) are
modelled as `Nat`.
-/

/-! ## SQL side: schema.sql data model -/

/-- Poll status enum `poll_status AS ENUM (active, closed, draft)`
(schema.sql line 10). -/
inductive PollStatus where
  | active
  | closed
  | draft
deriving DecidableEq, Repr

/-- A row of `public.polls` (schema.sql lines 25-36), restricted to the
columns `record_vote` and the claims consult: `id`, `status`,
`allow_multiple_votes`, `expires_at`.  (`record_vote` never reads
`expires_at`; it is kept in the model so that expiry-related claims can be
stated.)  Timestamps are modelled as integers. -/
structure SqlPoll where
  id : Nat
  status : PollStatus
  allowMultipleVotes : Bool
  expiresAt : Option Int
deriving DecidableEq, Repr

/-- A row of `public.poll_options` (schema.sql lines 39-46): `id`,
`poll_id`, `display_order` (the `option_text` column is never consulted by
the embedded operations). -/
structure SqlOption where
  id : Nat
  pollId : Nat
  displayOrder : Int
deriving DecidableEq, Repr

/-- A row of `public.votes` (schema.sql lines 49-56): the
`(poll_id, option_id, voter_id)` triple.  The surrogate `id` and
`created_at` columns are omitted; no embedded operation or claim reads
them, and `UNIQUE(poll_id, voter_id, option_id)` concerns only the
triple. -/
structure SqlVote where
  pollId : Nat
  optionId : Nat
  voterId : Nat
deriving DecidableEq, Repr

/-- The database state of the schema.sql side: the three tables as row
lists.  Row insertion is modelled as `cons`. -/
structure SqlState where
  polls : List SqlPoll
  pollOptions : List SqlOption
  votes : List SqlVote
deriving DecidableEq, Repr

/-- The `EXISTS (SELECT 1 FROM public.poll_options WHERE id = option_uuid
AND poll_id = poll_uuid)` check of `record_vote` (schema.sql line 263). -/
def optionBelongs (s : SqlState) (poll_uuid option_uuid : Nat) : Bool :=
  s.pollOptions.any (fun q => q.id == option_uuid && q.pollId == poll_uuid)

/-- The PL/pgSQL function `record_vote(poll_uuid, option_uuid, voter_uuid)`
of schema.sql lines 242-282.  `Except.error m` models `RAISE EXCEPTION m`
(which aborts the transaction, leaving the database untouched);
`Except.ok s` models a `RETURN TRUE` with resulting database state `s`.

Source steps, in order:
* `SELECT * INTO poll_record FROM public.polls WHERE id = poll_uuid` and
  `IF NOT FOUND THEN RAISE EXCEPTION Poll not found` (lines 252-256);
* `IF poll_record.status != active THEN RAISE EXCEPTION Poll is not
  active` (lines 258-260) — note no check of `expires_at` anywhere;
* option-membership check, else `RAISE EXCEPTION Invalid option for this
  poll` (lines 262-265);
* if `allow_multiple_votes`: `INSERT ... ON CONFLICT (poll_id, voter_id,
  option_id) DO NOTHING` (lines 268-272) — the conflict fires exactly when
  a row with the identical triple is present;
* else: `DELETE FROM public.votes WHERE poll_id = poll_uuid AND voter_id =
  voter_uuid` then `INSERT` of the new row (lines 273-278). -/
def record_vote (s : SqlState) (poll_uuid option_uuid voter_uuid : Nat) :
    Except String SqlState :=
  match s.polls.find? (fun p => p.id == poll_uuid) with
  | none => .error "Poll not found"
  | some poll_record =>
    if poll_record.status ≠ PollStatus.active then
      .error "Poll is not active"
    else if ¬ optionBelongs s poll_uuid option_uuid then
      .error "Invalid option for this poll"
    else if poll_record.allowMultipleVotes then
      if s.votes.any (fun w =>
          w.pollId == poll_uuid && w.voterId == voter_uuid &&
          w.optionId == option_uuid) then
        .ok s
      else
        .ok { s with votes := ⟨poll_uuid, option_uuid, voter_uuid⟩ :: s.votes }
    else
      .ok { s with votes := ⟨poll_uuid, option_uuid, voter_uuid⟩ ::
              s.votes.filter (fun w =>
                !(w.pollId == poll_uuid && w.voterId == voter_uuid)) }

/-- Runs `record_vote` as a state transformer: an exception rolls the
transaction back, so the state is returned unchanged together with the
error message. -/
def recordVoteRun (s : SqlState) (poll_uuid option_uuid voter_uuid : Nat) :
    Option String × SqlState :=
  match record_vote s poll_uuid option_uuid voter_uuid with
  | .ok s2 => (none, s2)
  | .error m => (some m, s)

/-- Applies a sequence of `record_vote` calls, each given as a
`(poll_uuid, option_uuid, voter_uuid)` triple, from left to right. -/
def runRecord (s : SqlState) (calls : List (Nat × Nat × Nat)) : SqlState :=
  calls.foldl (fun st c => (recordVoteRun st c.1 c.2.1 c.2.2).2) s

/-- Applies a sequence of `record_vote` calls by one fixed voter on one
fixed poll, requesting the listed option ids from left to right. -/
def runVoter (s : SqlState) (poll_uuid voter_uuid : Nat) (reqs : List Nat) :
    SqlState :=
  reqs.foldl (fun st o => (recordVoteRun st poll_uuid o voter_uuid).2) s

/-- The live vote rows of one voter on one poll (the rows a
`SELECT ... WHERE poll_id = poll_uuid AND voter_id = voter_uuid` would
return). -/
def votesFor (s : SqlState) (poll_uuid voter_uuid : Nat) : List SqlVote :=
  s.votes.filter (fun w => w.pollId == poll_uuid && w.voterId == voter_uuid)

/-! ## SQL side: tally (get_poll_with_options, schema.sql lines 160-208) -/

/-- All live vote rows of a poll (`SELECT ... FROM public.votes WHERE
poll_id = p.id`). -/
def pollVotes (s : SqlState) (poll_uuid : Nat) : List SqlVote :=
  s.votes.filter (fun w => w.pollId == poll_uuid)

/-- The `total_votes` column of `get_poll_with_options` (schema.sql line
204): `COALESCE((SELECT COUNT(*) FROM public.votes WHERE poll_id = p.id),
0)`. -/
def total_votes (s : SqlState) (poll_uuid : Nat) : Nat :=
  (pollVotes s poll_uuid).length

/-- The per-option `vote_count` of `get_poll_with_options` (schema.sql
lines 195-200): `SELECT option_id, COUNT(*) FROM public.votes WHERE
poll_id = p.id GROUP BY option_id`, looked up for one option id
(`COALESCE(..., 0)` when the option has no votes). -/
def option_vote_count (s : SqlState) (poll_uuid option_uuid : Nat) : Nat :=
  (s.votes.filter (fun w =>
    w.pollId == poll_uuid && w.optionId == option_uuid)).length

/-- The option rows of one poll (`FROM public.poll_options po ... WHERE
po.poll_id = p.id`). -/
def pollOptionRows (s : SqlState) (poll_uuid : Nat) : List SqlOption :=
  s.pollOptions.filter (fun q => q.pollId == poll_uuid)

/-- The `options` JSON array of `get_poll_with_options` (schema.sql lines
186-203), reduced to the machine-relevant pair (option id, vote count):
the options of the poll ordered by `display_order` (the `ORDER BY
po.display_order` inside `json_agg`), each with its vote count. -/
def per_option_counts (s : SqlState) (poll_uuid : Nat) : List (Nat × Nat) :=
  (List.insertionSort (fun a b => a.displayOrder ≤ b.displayOrder)
      (pollOptionRows s poll_uuid)).map
    (fun q => (q.id, option_vote_count s poll_uuid q.id))

/-! ## TypeScript side: src/unnamed/part_002 submitVote over the README
schema of src/unnamed/part_000 -/

/-- A row of the README `public.polls` table (part_000 lines 40-46),
restricted to the columns `submitVote` reads (`SELECT id, options`):
`id` and the `options text[]` array.  This table has no status, mode or
expiry column at all. -/
structure TSPoll where
  id : Nat
  options : List String
deriving DecidableEq, Repr

/-- A row of the README `public.votes` table (part_000 lines 49-56):
`poll_id`, `user_id`, `option_index`.  Surrogate `id` and `created_at`
omitted (never read).  A unique index `votes_unique_user_per_poll` on
`(poll_id, user_id)` guards inserts (part_000 lines 59-60). -/
structure TSVote where
  pollId : Nat
  userId : Nat
  optionIndex : Int
deriving DecidableEq, Repr

/-- The database state of the TypeScript side. -/
structure TSState where
  polls : List TSPoll
  votes : List TSVote
deriving DecidableEq, Repr

/-- The Postgres error message produced when an insert hits the unique
index `votes_unique_user_per_poll`. -/
def uniqueViolationMsg : String :=
  "duplicate key value violates unique constraint"

/-- ASCII lower-casing of a code point, for the case-insensitive regex
test below. -/
def charLower (c : Char) : Nat :=
  if 65 ≤ c.toNat ∧ c.toNat ≤ 90 then c.toNat + 32 else c.toNat

/-- Case-insensitive test that `pat` is a leading segment of `hay`. -/
def startsWithCI : List Char → List Char → Bool
  | _, [] => true
  | [], _ :: _ => false
  | c :: cs, d :: ds => (charLower c == charLower d) && startsWithCI cs ds

/-- Case-insensitive test that `pat` occurs somewhere in `hay`. -/
def containsCI : List Char → List Char → Bool
  | [], pat => pat.isEmpty
  | c :: rest, pat => startsWithCI (c :: rest) pat || containsCI rest pat

/-- The test `/duplicate key|unique/i.test(msg)` of part_002 line 142:
case-insensitive search for either pattern. -/
def isUniqueViolation (msg : String) : Bool :=
  containsCI msg.data "duplicate key".data ||
  containsCI msg.data "unique".data

/-- The storage insert of part_002 lines 135-137: an
`insert(\x7b poll_id, user_id, option_index \x7d)` guarded by the unique
index on `(poll_id, user_id)`.  The insert fails with the uniqueness
violation message exactly when a row with the same `(poll_id, user_id)`
pair is already present; otherwise the row is added. -/
def dbInsertVote (votes : List TSVote) (pollId userId : Nat)
    (optionIndex : Int) : Except String (List TSVote) :=
  if votes.any (fun v => v.pollId == pollId && v.userId == userId) then
    .error uniqueViolationMsg
  else
    .ok (⟨pollId, userId, optionIndex⟩ :: votes)

/-- The TypeScript server action `submitVote(pollId, rawOptionIndex)` of
part_002 lines 98-148, as a function of the two database snapshots it may
observe: `checkVotes` is the committed `votes` table at the time of the
duplicate pre-check (lines 125-130) and `insertVotes` the committed table
at the time of the insert (lines 135-137).  A sequential call passes the
same snapshot twice (`submitVote` below); differing snapshots model a
concurrent writer committing between the two storage calls.  Returns the
`\x7b error \x7d` result (`none` = success, `some msg` = the returned
error string) and the resulting `votes` table.

Source steps, in order:
* `supabase.auth.getUser()`; absent user gives the error
  `You must be logged in to vote.` (lines 102-107).  The modelled
  authentication input is `user? : Option Nat`; the `userErr` path is
  subsumed by `none`.
* coercion of `rawOptionIndex` with `parseInt` and the
  `Number.isInteger` check, else `Invalid option.` (lines 110-111):
  modelled as `rawOptionIndex : Option Int`, `none` standing for any
  non-integer input;
* poll lookup `select(id, options).eq(id, pollId).single()` (lines
  114-119); a missing poll surfaces the storage error message of
  `.single()`, modelled as the fixed string `Poll not found`;
* the `Array.isArray(poll.options)` test of line 120 is always true in
  the model (`options` is a list) — bounds check
  `optionIndex < 0 || optionIndex >= poll.options.length`, else
  `Invalid option.` (lines 120-122);
* duplicate pre-check `.eq(poll_id).eq(user_id).maybeSingle()` (lines
  125-132): with two or more matching rows `maybeSingle` itself errors
  (`checkErr`, modelled as the fixed string `Multiple rows returned`);
  with exactly one, the error `You have already voted in this poll.`;
* the insert (lines 135-137) and the handling of its failure (lines
  140-144): a message matching `/duplicate key|unique/i` is mapped to
  `You have already voted in this poll.`, any other message is returned
  as-is. -/
def submitVoteCore (polls : List TSPoll) (checkVotes insertVotes : List TSVote)
    (user? : Option Nat) (pollId : Nat) (rawOptionIndex : Option Int) :
    Option String × List TSVote :=
  match user? with
  | none => (some "You must be logged in to vote.", insertVotes)
  | some user =>
    match rawOptionIndex with
    | none => (some "Invalid option.", insertVotes)
    | some optionIndex =>
      match polls.find? (fun p => p.id == pollId) with
      | none => (some "Poll not found", insertVotes)
      | some poll =>
        if optionIndex < 0 ∨ (poll.options.length : Int) ≤ optionIndex then
          (some "Invalid option.", insertVotes)
        else
          match checkVotes.filter (fun v =>
              v.pollId == pollId && v.userId == user) with
          | [] =>
            match dbInsertVote insertVotes pollId user optionIndex with
            | .ok votes2 => (none, votes2)
            | .error msg =>
              if isUniqueViolation msg then
                (some "You have already voted in this poll.", insertVotes)
              else
                (some msg, insertVotes)
          | [_] => (some "You have already voted in this poll.", insertVotes)
          | _ :: _ :: _ => (some "Multiple rows returned", insertVotes)

/-- The sequential `submitVote`: both storage reads observe the same
committed state. -/
def submitVote (s : TSState) (user? : Option Nat) (pollId : Nat)
    (rawOptionIndex : Option Int) : Option String × TSState :=
  let r := submitVoteCore s.polls s.votes s.votes user? pollId rawOptionIndex
  (r.1, { s with votes := r.2 })

/-- Applies a sequence of sequential `submitVote` calls, each given as
`(user?, pollId, rawOptionIndex)`, from left to right. -/
def runSubmit (s : TSState) (calls : List (Option Nat × Nat × Option Int)) :
    TSState :=
  calls.foldl (fun st c => (submitVote st c.1 c.2.1 c.2.2).2) s

/-- The key triple of a schema.sql vote row, in the column order of the
`UNIQUE(poll_id, voter_id, option_id)` constraint (schema.sql line 55). -/
def tripleOf (v : SqlVote) : Nat × Nat × Nat :=
  (v.pollId, v.voterId, v.optionId)

/-- The `(poll_id, voter_id, option_id)` triple of a README-schema vote
row (`option_index` standing for the option). -/
def tsTripleOf (v : TSVote) : Nat × Nat × Int :=
  (v.pollId, v.userId, v.optionIndex)

/-- The `(poll_id, user_id)` pair of a README-schema vote row, the key of
the unique index `votes_unique_user_per_poll` (part_000 lines 59-60). -/
def tsPairOf (v : TSVote) : Nat × Nat :=
  (v.pollId, v.userId)

/-- Helper: a sequential `submitVote` by an authenticated user, on an
existing poll, with an in-bounds option index, while exactly one vote row
for `(pollId, userId)` is present, returns the duplicate-vote error and
leaves the state unchanged. -/
theorem submitVote_existing (s : TSState) (u p : Nat) (i : Int)
    (poll : TSPoll) (e : TSVote)
    (hfind : s.polls.find? (fun q => q.id == p) = some poll)
    (hlo : 0 ≤ i) (hhi : i < (poll.options.length : Int))
    (hex : s.votes.filter (fun v => v.pollId == p && v.userId == u) = [e]) :
    submitVote s (some u) p (some i) =
      (some "You have already voted in this poll.", s) := by
  have hcond : ¬ (i < 0 ∨ (poll.options.length : Int) ≤ i) := by omega
  simp only [submitVote, submitVoteCore, hfind, hex, hcond, if_false]

/-- C1 (counterexample): voter 7 already holds a live vote row for option
index 0 on poll 1; a second authenticated `submitVote` for the same option
0 returns the error `You have already voted in this poll.` — not the
success (no-op) the claim requires — so the claim is false at this
input.  (The ledger is indeed left unchanged.) -/
theorem C1_counterexample :
    submitVote ⟨[⟨1, ["A", "B"]⟩], [⟨1, 7, 0⟩]⟩ (some 7) 1 (some 0) =
      (some "You have already voted in this poll.",
        ⟨[⟨1, ["A", "B"]⟩], [⟨1, 7, 0⟩]⟩) := by decide

/-- C1 (amended): for every authenticated voter who already holds the
single live vote row for a poll, calling `submitVote` again for the very
option recorded in that row returns the error
`You have already voted in this poll.` (not success) and leaves the state
unchanged. -/
theorem C1_amended (s : TSState) (u p : Nat) (i : Int)
    (poll : TSPoll) (e : TSVote)
    (hfind : s.polls.find? (fun q => q.id == p) = some poll)
    (hlo : 0 ≤ i) (hhi : i < (poll.options.length : Int))
    (hex : s.votes.filter (fun v => v.pollId == p && v.userId == u) = [e])
    (_hsame : e.optionIndex = i) :
    submitVote s (some u) p (some i) =
      (some "You have already voted in this poll.", s) :=
  submitVote_existing s u p i poll e hfind hlo hhi hex

/-- C1 (witness): the amended statement instantiated at poll 1 with
options `A, B`, voter 7 re-voting option 0, the option already held. -/
theorem C1_witness :
    submitVote ⟨[⟨1, ["A", "B"]⟩], [⟨1, 7, 0⟩]⟩ (some 7) 1 (some 0) =
      (some "You have already voted in this poll.",
        ⟨[⟨1, ["A", "B"]⟩], [⟨1, 7, 0⟩]⟩) :=
  C1_amended ⟨[⟨1, ["A", "B"]⟩], [⟨1, 7, 0⟩]⟩ 7 1 0 ⟨1, ["A", "B"]⟩
    ⟨1, 7, 0⟩ (by decide) (by decide) (by decide) (by decide) (by decide)

/-- C10: in the TypeScript `submitVote`, once a voter holds the (single)
vote row for a poll, every further authenticated call by that voter for
any in-bounds option index — the same or a different one — returns the
error `You have already voted in this poll.` and leaves the ledger
unchanged: the duplicate check is keyed on `(poll_id, user_id)` alone, so
the voter can never change a vote or add one for another option. -/
theorem C10_blanket_duplicate (s : TSState) (u p : Nat) (i : Int)
    (poll : TSPoll) (e : TSVote)
    (hfind : s.polls.find? (fun q => q.id == p) = some poll)
    (hlo : 0 ≤ i) (hhi : i < (poll.options.length : Int))
    (hex : s.votes.filter (fun v => v.pollId == p && v.userId == u) = [e]) :
    submitVote s (some u) p (some i) =
      (some "You have already voted in this poll.", s) :=
  submitVote_existing s u p i poll e hfind hlo hhi hex

/-- C10 (witness): voter 7 holds a row for option 0 on poll 1 and now
requests the different option 1; the call errors and the ledger keeps the
single original row. -/
theorem C10_witness :
    submitVote ⟨[⟨1, ["A", "B"]⟩], [⟨1, 7, 0⟩]⟩ (some 7) 1 (some 1) =
      (some "You have already voted in this poll.",
        ⟨[⟨1, ["A", "B"]⟩], [⟨1, 7, 0⟩]⟩) :=
  C10_blanket_duplicate ⟨[⟨1, ["A", "B"]⟩], [⟨1, 7, 0⟩]⟩ 7 1 1
    ⟨1, ["A", "B"]⟩ ⟨1, 7, 0⟩ (by decide) (by decide) (by decide) (by decide)

/-- C2 (counterexample): a raced `submitVote` in which the duplicate
pre-check observed no vote row (`checkVotes = []`) but a concurrent call
committed the row `(poll 1, user 7, option 1)` before the insert
(`insertVotes`), so the insert fails with the storage uniqueness
violation.  The call returns the error
`You have already voted in this poll.` — an error, not the success the
claim requires — so the claim is false at this input. -/
theorem C2_counterexample :
    submitVoteCore [⟨1, ["A", "B"]⟩] [] [⟨1, 7, 1⟩] (some 7) 1 (some 0) =
      (some "You have already voted in this poll.", [⟨1, 7, 1⟩]) := by decide

/-- C2 (amended): for every `submitVote` call whose insert fails with the
storage uniqueness-violation message after the application-level
duplicate check passed (a concurrent row for `(poll_id, user_id)` was
committed in between), `submitVote` catches the violation and returns the
duplicate-vote error `You have already voted in this poll.` — never the
raw storage message, but an error nonetheless, not success — and the
ledger keeps only the concurrently committed row. -/
theorem C2_amended (polls : List TSPoll) (checkVotes insertVotes : List TSVote)
    (u p : Nat) (i : Int) (poll : TSPoll)
    (hfind : polls.find? (fun q => q.id == p) = some poll)
    (hlo : 0 ≤ i) (hhi : i < (poll.options.length : Int))
    (hchk : checkVotes.filter (fun v => v.pollId == p && v.userId == u) = [])
    (hconf : insertVotes.any (fun v => v.pollId == p && v.userId == u) = true) :
    submitVoteCore polls checkVotes insertVotes (some u) p (some i) =
      (some "You have already voted in this poll.", insertVotes) := by
  have hcond : ¬ (i < 0 ∨ (poll.options.length : Int) ≤ i) := by omega
  have huniq : isUniqueViolation uniqueViolationMsg = true := by decide
  simp only [submitVoteCore, hfind, hchk, hcond, if_false, dbInsertVote,
    hconf, if_true, huniq]

/-- C2 (witness): the amended statement at the concrete raced input of
the counterexample. -/
theorem C2_witness :
    submitVoteCore [⟨1, ["A", "B"]⟩] [] [⟨1, 7, 1⟩] (some 7) 1 (some 0) =
      (some "You have already voted in this poll.", [⟨1, 7, 1⟩]) :=
  C2_amended [⟨1, ["A", "B"]⟩] [] [⟨1, 7, 1⟩] 7 1 0 ⟨1, ["A", "B"]⟩
    (by decide) (by decide) (by decide) (by decide) (by decide)

/-- Helper: every `submitVoteCore` outcome is either a success or leaves
the votes table exactly as the insert-time snapshot. -/
theorem core_ok_or_unchanged (polls : List TSPoll)
    (checkVotes insertVotes : List TSVote) (user? : Option Nat)
    (pollId : Nat) (raw : Option Int) :
    (submitVoteCore polls checkVotes insertVotes user? pollId raw).1 = none ∨
    (submitVoteCore polls checkVotes insertVotes user? pollId raw).2 =
      insertVotes := by
  unfold submitVoteCore
  repeat' split
  all_goals simp_all [dbInsertVote]

/-- C8: every TypeScript `submitVote` call that returns an error — in
particular every validation failure (unauthenticated caller, poll not
found, invalid option, duplicate vote) — leaves the database state,
both the `votes` ledger and the `polls` store, exactly as it was before
the call: errors are returned before any mutation. -/
theorem C8_error_no_mutation (s : TSState) (user? : Option Nat)
    (pollId : Nat) (raw : Option Int)
    (herr : (submitVote s user? pollId raw).1 ≠ none) :
    (submitVote s user? pollId raw).2 = s := by
  rcases core_ok_or_unchanged s.polls s.votes s.votes user? pollId raw with
    h1 | h2
  · exact absurd h1 herr
  · show ({ s with
        votes := (submitVoteCore s.polls s.votes s.votes user? pollId raw).2 } :
          TSState) = s
    rw [h2]

/-- C8 (witness): an unauthenticated call on a concrete state errors and
the state is returned unchanged. -/
theorem C8_witness :
    (submitVote ⟨[⟨1, ["A", "B"]⟩], []⟩ none 1 (some 0)).1 ≠ none ∧
    (submitVote ⟨[⟨1, ["A", "B"]⟩], []⟩ none 1 (some 0)).2 =
      ⟨[⟨1, ["A", "B"]⟩], []⟩ :=
  ⟨by decide, C8_error_no_mutation ⟨[⟨1, ["A", "B"]⟩], []⟩ none 1 (some 0)
    (by decide)⟩

/-- C4 (counterexample): poll 1 has `status = active` but
`expires_at = 0`, a timestamp in the past relative to any later call
time; `record_vote` reads no clock and never consults `expires_at`, so
the vote is accepted and a row is inserted — not the `PollClosed`
failure the claim requires for an expired poll. -/
theorem C4_counterexample :
    record_vote ⟨[⟨1, .active, false, some 0⟩], [⟨10, 1, 0⟩, ⟨11, 1, 1⟩], []⟩
        1 10 100 =
      .ok ⟨[⟨1, .active, false, some 0⟩], [⟨10, 1, 0⟩, ⟨11, 1, 1⟩],
        [⟨1, 10, 100⟩]⟩ := rfl

/-- C4 (amended): `record_vote` on a poll whose status is not `active`
(closed or draft) fails with the exception `Poll is not active` and
leaves the database unchanged — no vote row is created — even when the
voter and option are otherwise valid; but neither `record_vote` nor the
TypeScript `submitVote` checks `expires_at`, so an expired poll whose
status is still `active` continues to accept votes. -/
theorem C4_amended (s : SqlState) (p o v : Nat) (poll : SqlPoll)
    (hfind : s.polls.find? (fun q => q.id == p) = some poll)
    (hstatus : poll.status ≠ PollStatus.active) :
    recordVoteRun s p o v = (some "Poll is not active", s) := by
  simp only [recordVoteRun, record_vote, hfind, ne_eq, hstatus,
    not_false_eq_true, if_true]

/-- C4 (witness): the amended statement at a concrete closed poll. -/
theorem C4_witness :
    recordVoteRun ⟨[⟨1, .closed, false, none⟩], [⟨10, 1, 0⟩], []⟩ 1 10 5 =
      (some "Poll is not active",
        ⟨[⟨1, .closed, false, none⟩], [⟨10, 1, 0⟩], []⟩) :=
  C4_amended ⟨[⟨1, .closed, false, none⟩], [⟨10, 1, 0⟩], []⟩ 1 10 5
    ⟨1, .closed, false, none⟩ (by decide) (by decide)

/-- C7 (counterexample): on poll 1, whose status is `closed`, a vote for
option 99 — an option that does not belong to the poll (its only option
is 10) — fails with `Poll is not active`, not with the invalid-option
error: the status check of `record_vote` precedes the option check, so
the claim `fails with InvalidOption regardless of poll status` is false
at this input. -/
theorem C7_counterexample :
    record_vote ⟨[⟨1, .closed, false, none⟩], [⟨10, 1, 0⟩], []⟩ 1 99 5 =
      .error "Poll is not active" := rfl

/-- C7 (amended): a vote for an option outside the option set of the
poll fails with the invalid-option error and creates no vote row,
regardless of poll mode, provided the poll check passes: `record_vote`
raises `Invalid option for this poll` whenever the poll exists and is
active (when it is not active, `Poll is not active` takes precedence);
the index-based TypeScript `submitVote`, for an authenticated caller and
an existing poll, returns `Invalid option.` for every non-integer,
negative, or out-of-bounds option index and leaves the state
unchanged. -/
theorem C7_amended (s : SqlState) (p o v : Nat) (poll : SqlPoll)
    (hfind : s.polls.find? (fun x => x.id == p) = some poll)
    (hactive : poll.status = PollStatus.active)
    (hopt : optionBelongs s p o = false)
    (t : TSState) (u q : Nat) (raw : Option Int) (tpoll : TSPoll)
    (htfind : t.polls.find? (fun x => x.id == q) = some tpoll)
    (hbad : raw = none ∨
      ∃ i, raw = some i ∧ (i < 0 ∨ (tpoll.options.length : Int) ≤ i)) :
    recordVoteRun s p o v = (some "Invalid option for this poll", s) ∧
    submitVote t (some u) q raw = (some "Invalid option.", t) := by
  constructor
  · simp [recordVoteRun, record_vote, hfind, hactive, hopt]
  · rcases hbad with h | ⟨i, hi, hib⟩
    · subst h
      rfl
    · subst hi
      simp only [submitVote, submitVoteCore, htfind]
      rw [if_pos hib]

/-- C7 (witness): the amended statement at an active poll with an
unknown option id 99 (SQL side) and at an out-of-bounds index 5 on a
two-option poll (TypeScript side). -/
theorem C7_witness :
    recordVoteRun ⟨[⟨1, .active, false, none⟩], [⟨10, 1, 0⟩], []⟩ 1 99 5 =
      (some "Invalid option for this poll",
        ⟨[⟨1, .active, false, none⟩], [⟨10, 1, 0⟩], []⟩) ∧
    submitVote ⟨[⟨2, ["A", "B"]⟩], []⟩ (some 7) 2 (some 5) =
      (some "Invalid option.", ⟨[⟨2, ["A", "B"]⟩], []⟩) :=
  C7_amended ⟨[⟨1, .active, false, none⟩], [⟨10, 1, 0⟩], []⟩ 1 99 5
    ⟨1, .active, false, none⟩ (by decide) (by decide) (by decide)
    ⟨[⟨2, ["A", "B"]⟩], []⟩ 7 2 (some 5) ⟨2, ["A", "B"]⟩ (by decide)
    (Or.inr ⟨5, rfl, by decide⟩)

/-- Helper: `record_vote` never touches the `polls` table. -/
theorem recordVoteRun_polls (s : SqlState) (p o v : Nat) :
    ((recordVoteRun s p o v).2).polls = s.polls := by
  unfold recordVoteRun
  split
  · rename_i s2 heq
    unfold record_vote at heq
    repeat' split at heq
    all_goals cases heq
    all_goals rfl
  · rfl

/-- Helper: `record_vote` never touches the `poll_options` table. -/
theorem recordVoteRun_pollOptions (s : SqlState) (p o v : Nat) :
    ((recordVoteRun s p o v).2).pollOptions = s.pollOptions := by
  unfold recordVoteRun
  split
  · rename_i s2 heq
    unfold record_vote at heq
    repeat' split at heq
    all_goals cases heq
    all_goals rfl
  · rfl

/-- Helper: `optionBelongs` reads only the `poll_options` table. -/
theorem optionBelongs_congr (s1 s2 : SqlState)
    (h : s1.pollOptions = s2.pollOptions) (p o : Nat) :
    optionBelongs s1 p o = optionBelongs s2 p o := by
  unfold optionBelongs
  rw [h]

/-- Helper: a valid `record_vote` on an active single-choice poll
succeeds, deleting every prior row of that voter on that poll and
inserting the new row. -/
theorem record_vote_single_step (s : SqlState) (p o v : Nat) (poll : SqlPoll)
    (hfind : s.polls.find? (fun x => x.id == p) = some poll)
    (hactive : poll.status = PollStatus.active)
    (hmulti : poll.allowMultipleVotes = false)
    (hopt : optionBelongs s p o = true) :
    recordVoteRun s p o v =
      (none, { s with votes := ⟨p, o, v⟩ ::
        s.votes.filter (fun w => !(w.pollId == p && w.voterId == v)) }) := by
  simp [recordVoteRun, record_vote, hfind, hactive, hopt, hmulti]

/-- Helper: after the delete-then-insert of the single-choice branch, the
voter holds exactly the one new row on the poll. -/
theorem votesFor_delete_insert (s : SqlState) (p o v : Nat) :
    votesFor { s with votes := ⟨p, o, v⟩ ::
        s.votes.filter (fun w => !(w.pollId == p && w.voterId == v)) } p v =
      [⟨p, o, v⟩] := by
  unfold votesFor
  simp only [List.filter_cons, beq_self_eq_true, Bool.and_self, if_true,
    List.filter_filter]
  have h : ∀ w : SqlVote,
      ((w.pollId == p && w.voterId == v) &&
        !(w.pollId == p && w.voterId == v)) = false := by
    intro w
    exact Bool.and_not_self _
  simp [h]

/-- Helper: on an active single-choice poll, any nonempty left-to-right
sequence of valid `record_vote` calls by one voter leaves that voter with
exactly one live row, carrying the last requested option. -/
theorem runVoter_single_aux (p v : Nat) (poll : SqlPoll)
    (hactive : poll.status = PollStatus.active)
    (hmulti : poll.allowMultipleVotes = false) :
    ∀ (reqs : List Nat) (s : SqlState),
      s.polls.find? (fun x => x.id == p) = some poll →
      (∀ o ∈ reqs, optionBelongs s p o = true) →
      ∀ (hne : reqs ≠ []),
      votesFor (runVoter s p v reqs) p v = [⟨p, reqs.getLast hne, v⟩] := by
  intro reqs
  induction reqs with
  | nil =>
    intro s _ _ hne
    exact absurd rfl hne
  | cons o rest ih =>
    intro s hfind hvalid hne
    have hvo : optionBelongs s p o = true := hvalid o (List.mem_cons_self o rest)
    have hstep := record_vote_single_step s p o v poll hfind hactive hmulti hvo
    show votesFor (runVoter (recordVoteRun s p o v).2 p v rest) p v =
      [⟨p, (o :: rest).getLast hne, v⟩]
    rw [hstep]
    cases rest with
    | nil =>
      exact votesFor_delete_insert s p o v
    | cons o2 rest2 =>
      refine (ih _ ?_ ?_ (List.cons_ne_nil o2 rest2)).trans ?_
      · exact hfind
      · intro o2h ho2h
        simpa [optionBelongs] using hvalid o2h (List.mem_cons_of_mem o ho2h)
      · simp [List.getLast_cons]

/-- C3 (counterexample): in the TypeScript `submitVote`, voter 7 on poll
1 (options `A`, `B`) first votes for option index 0 and then requests the
different option index 1.  The final ledger holds the single row for
option 0 — the first option requested, not the most recent distinct
option 1 — because the second call was rejected as a duplicate, so the
claim is false at this input. -/
theorem C3_counterexample :
    runSubmit ⟨[⟨1, ["A", "B"]⟩], []⟩
        [(some 7, 1, some 0), (some 7, 1, some 1)] =
      ⟨[⟨1, ["A", "B"]⟩], [⟨1, 7, 0⟩]⟩ := by decide

/-- C3 (amended): the claimed single-choice behaviour holds of the SQL
function `record_vote` (the TypeScript `submitVote` instead keeps the
first vote and rejects every later call): on an active single-choice
poll, after any nonempty finite sequence of `record_vote` calls by one
voter requesting valid options, exactly one live vote row exists for
that voter on that poll, and it references the most recently requested
option — a call for a different option retracts the prior row and
inserts the new one in the same transaction. -/
theorem C3_single_choice_last (s : SqlState) (p v : Nat) (poll : SqlPoll)
    (reqs : List Nat)
    (hfind : s.polls.find? (fun x => x.id == p) = some poll)
    (hactive : poll.status = PollStatus.active)
    (hmulti : poll.allowMultipleVotes = false)
    (hvalid : ∀ o ∈ reqs, optionBelongs s p o = true)
    (hne : reqs ≠ []) :
    votesFor (runVoter s p v reqs) p v = [⟨p, reqs.getLast hne, v⟩] :=
  runVoter_single_aux p v poll hactive hmulti reqs s hfind hvalid hne

/-- C3 (witness): poll 1 (active, single-choice, options 10 and 11),
voter 5 requests options 10, 11, then 10 again; the final ledger holds
exactly one row for voter 5, and it references option 10, the last
request. -/
theorem C3_witness :
    votesFor
        (runVoter ⟨[⟨1, .active, false, none⟩], [⟨10, 1, 0⟩, ⟨11, 1, 1⟩], []⟩
          1 5 [10, 11, 10]) 1 5 =
      [⟨1, 10, 5⟩] :=
  C3_single_choice_last ⟨[⟨1, .active, false, none⟩], [⟨10, 1, 0⟩, ⟨11, 1, 1⟩], []⟩
    1 5 ⟨1, .active, false, none⟩ [10, 11, 10] (by decide) (by decide)
    (by decide) (by decide) (by decide)

/-- Helper: the `ON CONFLICT` test of the multiple-choice branch fires
exactly when the voter already holds a live row for that option. -/
theorem any_triple_iff (s : SqlState) (p o v : Nat) :
    (s.votes.any (fun w =>
        w.pollId == p && w.voterId == v && w.optionId == o)) = true ↔
      o ∈ (votesFor s p v).map SqlVote.optionId := by
  simp only [List.any_eq_true, votesFor, List.mem_map, List.mem_filter,
    Bool.and_eq_true, beq_iff_eq]
  constructor
  · rintro ⟨w, hw, ⟨hp, hv⟩, ho⟩
    exact ⟨w, ⟨hw, hp, hv⟩, ho⟩
  · rintro ⟨w, ⟨hw, hp, hv⟩, ho⟩
    exact ⟨w, hw, ⟨hp, hv⟩, ho⟩

/-- Helper: a valid multiple-choice `record_vote` for an option the voter
already holds is a success with no state change (`ON CONFLICT DO
NOTHING`). -/
theorem record_vote_multi_hit (s : SqlState) (p o v : Nat) (poll : SqlPoll)
    (hfind : s.polls.find? (fun x => x.id == p) = some poll)
    (hactive : poll.status = PollStatus.active)
    (hmulti : poll.allowMultipleVotes = true)
    (hopt : optionBelongs s p o = true)
    (hany : (s.votes.any (fun w =>
        w.pollId == p && w.voterId == v && w.optionId == o)) = true) :
    recordVoteRun s p o v = (none, s) := by
  simp [recordVoteRun, record_vote, hfind, hactive, hmulti, hopt, hany]

/-- Helper: a valid multiple-choice `record_vote` for an option the voter
does not yet hold inserts exactly the new row. -/
theorem record_vote_multi_miss (s : SqlState) (p o v : Nat) (poll : SqlPoll)
    (hfind : s.polls.find? (fun x => x.id == p) = some poll)
    (hactive : poll.status = PollStatus.active)
    (hmulti : poll.allowMultipleVotes = true)
    (hopt : optionBelongs s p o = true)
    (hany : (s.votes.any (fun w =>
        w.pollId == p && w.voterId == v && w.optionId == o)) = false) :
    recordVoteRun s p o v =
      (none, { s with votes := ⟨p, o, v⟩ :: s.votes }) := by
  simp [recordVoteRun, record_vote, hfind, hactive, hmulti, hopt, hany]

/-- Helper: inserting a row of the voter at the head of the ledger
prepends it to the rows selected for that voter. -/
theorem votesFor_cons_self (s : SqlState) (p o v : Nat) :
    votesFor { s with votes := ⟨p, o, v⟩ :: s.votes } p v =
      ⟨p, o, v⟩ :: votesFor s p v := by
  unfold votesFor
  simp [List.filter_cons]

/-- Helper: on an active multiple-choice poll, after any left-to-right
sequence of valid `record_vote` calls by one voter, the option ids of
that voter's live rows are duplicate-free and are exactly the initially
held options together with the requested ones. -/
theorem runVoter_multi_aux (p v : Nat) (poll : SqlPoll)
    (hactive : poll.status = PollStatus.active)
    (hmulti : poll.allowMultipleVotes = true) :
    ∀ (reqs : List Nat) (s : SqlState),
      s.polls.find? (fun x => x.id == p) = some poll →
      (∀ o ∈ reqs, optionBelongs s p o = true) →
      ((votesFor s p v).map SqlVote.optionId).Nodup →
      ((votesFor (runVoter s p v reqs) p v).map SqlVote.optionId).Nodup ∧
      ∀ x, x ∈ (votesFor (runVoter s p v reqs) p v).map SqlVote.optionId ↔
        (x ∈ (votesFor s p v).map SqlVote.optionId ∨ x ∈ reqs) := by
  intro reqs
  induction reqs with
  | nil =>
    intro s _ _ hnd
    exact ⟨hnd, fun x => by simp [runVoter]⟩
  | cons o rest ih =>
    intro s hfind hvalid hnd
    have hvo : optionBelongs s p o = true := hvalid o (List.mem_cons_self o rest)
    show ((votesFor (runVoter (recordVoteRun s p o v).2 p v rest) p v).map
        SqlVote.optionId).Nodup ∧
      ∀ x, x ∈ (votesFor (runVoter (recordVoteRun s p o v).2 p v rest) p v).map
          SqlVote.optionId ↔
        (x ∈ (votesFor s p v).map SqlVote.optionId ∨ x ∈ o :: rest)
    by_cases hmem : o ∈ (votesFor s p v).map SqlVote.optionId
    · have hany : (s.votes.any (fun w =>
          w.pollId == p && w.voterId == v && w.optionId == o)) = true :=
        (any_triple_iff s p o v).mpr hmem
      rw [record_vote_multi_hit s p o v poll hfind hactive hmulti hvo hany]
      obtain ⟨ihnd, ihmem⟩ :=
        ih s hfind (fun o2 h2 => hvalid o2 (List.mem_cons_of_mem o h2)) hnd
      refine ⟨ihnd, fun x => ?_⟩
      rw [ihmem x]
      constructor
      · rintro (h | h)
        · exact Or.inl h
        · exact Or.inr (List.mem_cons_of_mem o h)
      · rintro (h | h)
        · exact Or.inl h
        · rcases List.mem_cons.mp h with rfl | h2
          · exact Or.inl hmem
          · exact Or.inr h2
    · have hany : (s.votes.any (fun w =>
          w.pollId == p && w.voterId == v && w.optionId == o)) = false := by
        rw [Bool.eq_false_iff]
        exact fun h => hmem ((any_triple_iff s p o v).mp h)
      rw [record_vote_multi_miss s p o v poll hfind hactive hmulti hvo hany]
      have hv2 : ∀ o2 ∈ rest,
          optionBelongs ({ s with votes := ⟨p, o, v⟩ :: s.votes } : SqlState)
            p o2 = true := by
        intro o2 h2
        simpa [optionBelongs] using hvalid o2 (List.mem_cons_of_mem o h2)
      have hnd2 : ((votesFor
          ({ s with votes := ⟨p, o, v⟩ :: s.votes } : SqlState) p v).map
            SqlVote.optionId).Nodup := by
        rw [votesFor_cons_self]
        simp only [List.map_cons, List.nodup_cons]
        exact ⟨hmem, hnd⟩
      obtain ⟨ihnd, ihmem⟩ :=
        ih { s with votes := ⟨p, o, v⟩ :: s.votes } hfind hv2 hnd2
      refine ⟨ihnd, fun x => ?_⟩
      rw [ihmem x, votesFor_cons_self]
      simp only [List.map_cons, List.mem_cons]
      tauto

/-- C5: on an active multiple-choice poll, after any finite sequence of
valid `record_vote` calls by one voter who starts with no live rows on
the poll, the option ids of that voter's live vote rows are
duplicate-free (re-requesting a held option never creates a second row)
and form exactly the set of distinct options ever requested. -/
theorem C5_multi_choice_set (s : SqlState) (p v : Nat) (poll : SqlPoll)
    (reqs : List Nat)
    (hfind : s.polls.find? (fun x => x.id == p) = some poll)
    (hactive : poll.status = PollStatus.active)
    (hmulti : poll.allowMultipleVotes = true)
    (hvalid : ∀ o ∈ reqs, optionBelongs s p o = true)
    (hempty : votesFor s p v = []) :
    ((votesFor (runVoter s p v reqs) p v).map SqlVote.optionId).Nodup ∧
    ((votesFor (runVoter s p v reqs) p v).map SqlVote.optionId).toFinset =
      reqs.toFinset := by
  obtain ⟨hnd, hmem⟩ :=
    runVoter_multi_aux p v poll hactive hmulti reqs s hfind hvalid
      (by simp [hempty])
  refine ⟨hnd, ?_⟩
  ext x
  simp only [List.mem_toFinset]
  rw [hmem x]
  simp [hempty]

/-- C5 (witness): poll 1 (active, multiple-choice, options 10, 11, 12),
voter 5 requests options 10, 11, then 10 again; the resulting live rows
carry duplicate-free option ids whose set is exactly the set of distinct
requested options. -/
theorem C5_witness :
    ((votesFor
        (runVoter ⟨[⟨1, .active, true, none⟩],
          [⟨10, 1, 0⟩, ⟨11, 1, 1⟩, ⟨12, 1, 2⟩], []⟩ 1 5 [10, 11, 10]) 1 5).map
      SqlVote.optionId).Nodup ∧
    ((votesFor
        (runVoter ⟨[⟨1, .active, true, none⟩],
          [⟨10, 1, 0⟩, ⟨11, 1, 1⟩, ⟨12, 1, 2⟩], []⟩ 1 5 [10, 11, 10]) 1 5).map
      SqlVote.optionId).toFinset = ([10, 11, 10] : List Nat).toFinset :=
  C5_multi_choice_set
    ⟨[⟨1, .active, true, none⟩], [⟨10, 1, 0⟩, ⟨11, 1, 1⟩, ⟨12, 1, 2⟩], []⟩
    1 5 ⟨1, .active, true, none⟩ [10, 11, 10] (by decide) (by decide)
    (by decide) (by decide) (by decide)

/-- Helper: one `record_vote` call preserves distinctness of the
`(poll_id, voter_id, option_id)` triples in the ledger. -/
theorem record_step_triple_nodup (s : SqlState) (p o v : Nat)
    (h : (s.votes.map tripleOf).Nodup) :
    (((recordVoteRun s p o v).2).votes.map tripleOf).Nodup := by
  unfold recordVoteRun
  split
  · rename_i s2 heq
    unfold record_vote at heq
    repeat' split at heq
    all_goals cases heq
    · exact h
    · rename_i hany
      rw [List.map_cons]
      refine List.nodup_cons.mpr ⟨?_, h⟩
      intro hmem
      rcases List.mem_map.mp hmem with ⟨w, hw, hwt⟩
      simp only [tripleOf, Prod.ext_iff] at hwt
      obtain ⟨h1, h2, h3⟩ := hwt
      exact hany (List.any_eq_true.mpr ⟨w, hw, by simp [h1, h2, h3]⟩)
    · rw [List.map_cons]
      refine List.nodup_cons.mpr ⟨?_, ?_⟩
      · intro hmem
        rcases List.mem_map.mp hmem with ⟨w, hw, hwt⟩
        have hw2 := (List.mem_filter.mp hw).2
        simp only [tripleOf, Prod.ext_iff] at hwt
        obtain ⟨h1, h2, h3⟩ := hwt
        simp [h1, h2] at hw2
      · exact List.Nodup.sublist
          ((List.filter_sublist s.votes).map tripleOf) h
  · exact h

/-- Helper: one sequential `submitVote` call preserves distinctness of
the `(poll_id, user_id)` pairs in the README-schema ledger (the key of
the unique index `votes_unique_user_per_poll`). -/
theorem submit_step_pair_nodup (s : TSState) (u? : Option Nat) (pid : Nat)
    (raw : Option Int) (h : (s.votes.map tsPairOf).Nodup) :
    (((submitVote s u? pid raw).2).votes.map tsPairOf).Nodup := by
  cases u? with
  | none => exact h
  | some u =>
    cases raw with
    | none => exact h
    | some i =>
      show ((submitVoteCore s.polls s.votes s.votes
          (some u) pid (some i)).2.map tsPairOf).Nodup
      unfold submitVoteCore
      cases hf : s.polls.find? (fun p => p.id == pid) with
      | none => exact h
      | some poll =>
        dsimp only
        by_cases hb : i < 0 ∨ (poll.options.length : Int) ≤ i
        · rw [if_pos hb]
          exact h
        · rw [if_neg hb]
          cases hflt : s.votes.filter
              (fun v => v.pollId == pid && v.userId == u) with
          | cons e rest =>
            cases rest with
            | nil => exact h
            | cons e2 rest2 => exact h
          | nil =>
            unfold dbInsertVote
            have hany : (s.votes.any
                (fun v => v.pollId == pid && v.userId == u)) = false := by
              rw [Bool.eq_false_iff]
              intro hx
              rcases List.any_eq_true.mp hx with ⟨w, hw, hpred⟩
              have hmem : w ∈ s.votes.filter
                  (fun v => v.pollId == pid && v.userId == u) :=
                List.mem_filter.mpr ⟨hw, hpred⟩
              rw [hflt] at hmem
              cases hmem
            simp only [hany, Bool.false_eq_true, if_false]
            rw [List.map_cons]
            refine List.nodup_cons.mpr ⟨?_, h⟩
            intro hmem
            rcases List.mem_map.mp hmem with ⟨w, hw, hwt⟩
            simp only [tsPairOf, Prod.ext_iff] at hwt
            obtain ⟨h1, h2⟩ := hwt
            have hmem2 : w ∈ s.votes.filter
                (fun v => v.pollId == pid && v.userId == u) :=
              List.mem_filter.mpr ⟨hw, by simp [h1, h2]⟩
            rw [hflt] at hmem2
            cases hmem2

/-- Helper: distinctness of ledger triples is preserved along any
sequence of `record_vote` calls. -/
theorem runRecord_nodup (calls : List (Nat × Nat × Nat)) :
    ∀ s : SqlState, (s.votes.map tripleOf).Nodup →
      ((runRecord s calls).votes.map tripleOf).Nodup := by
  induction calls with
  | nil =>
    intro s h
    exact h
  | cons c rest ih =>
    intro s h
    exact ih _ (record_step_triple_nodup s c.1 c.2.1 c.2.2 h)

/-- Helper: distinctness of ledger pairs is preserved along any sequence
of sequential `submitVote` calls. -/
theorem runSubmit_nodup (calls : List (Option Nat × Nat × Option Int)) :
    ∀ s : TSState, (s.votes.map tsPairOf).Nodup →
      ((runSubmit s calls).votes.map tsPairOf).Nodup := by
  induction calls with
  | nil =>
    intro s h
    exact h
  | cons c rest ih =>
    intro s h
    exact ih _ (submit_step_pair_nodup s c.1 c.2.1 c.2.2 h)

/-- Helper: rows with distinct `(poll_id, user_id)` pairs a fortiori have
distinct `(poll_id, user_id, option_index)` triples. -/
theorem ts_pairs_to_triples (l : List TSVote)
    (h : (l.map tsPairOf).Nodup) : (l.map tsTripleOf).Nodup := by
  have heq : l.map tsPairOf =
      (l.map tsTripleOf).map (fun t => (t.1, t.2.1)) := by
    rw [List.map_map]
    rfl
  rw [heq] at h
  exact List.Nodup.of_map _ h

/-- C9: in every state of either vote ledger reachable from an empty
ledger by any sequence of vote operations — `record_vote` calls on the
schema.sql side, sequential `submitVote` calls on the TypeScript side —
no two vote rows share the identical `(pollId, voterId, optionId)`
triple. -/
theorem C9_no_duplicate_triples :
    (∀ (polls : List SqlPoll) (opts : List SqlOption)
        (calls : List (Nat × Nat × Nat)),
      ((runRecord ⟨polls, opts, []⟩ calls).votes.map tripleOf).Nodup) ∧
    (∀ (tpolls : List TSPoll) (calls : List (Option Nat × Nat × Option Int)),
      ((runSubmit ⟨tpolls, []⟩ calls).votes.map tsTripleOf).Nodup) := by
  constructor
  · intro polls opts calls
    exact runRecord_nodup calls ⟨polls, opts, []⟩ (by simp)
  · intro tpolls calls
    exact ts_pairs_to_triples _ (runSubmit_nodup calls ⟨tpolls, []⟩ (by simp))

/-- Helper: summing the indicator of `a` over a duplicate-free list
containing `a` gives exactly 1. -/
theorem sum_indicator_one (a : Nat) :
    ∀ (ids : List Nat), ids.Nodup → a ∈ ids →
      (ids.map (fun i => if a = i then 1 else 0)).sum = 1 := by
  intro ids
  induction ids with
  | nil =>
    intro _ h
    cases h
  | cons b bs ih =>
    intro hnd hmem
    rw [List.map_cons, List.sum_cons]
    rcases List.mem_cons.mp hmem with rfl | hb
    · rw [if_pos rfl]
      have hz : (bs.map (fun i => if a = i then 1 else 0)).sum = 0 := by
        apply List.sum_eq_zero
        intro x hx
        rcases List.mem_map.mp hx with ⟨i, hi, rfl⟩
        have hne : a ≠ i := fun he => (List.nodup_cons.mp hnd).1 (he ▸ hi)
        rw [if_neg hne]
      rw [hz]
    · have hab : a ≠ b := fun he => (List.nodup_cons.mp hnd).1 (he ▸ hb)
      rw [if_neg hab, ih (List.nodup_cons.mp hnd).2 hb]

/-- Helper: grouping a list of keys by the distinct group ids covering it
partitions it — the group sizes sum to the length of the list. -/
theorem counts_partition (ids : List Nat) (hnd : ids.Nodup) :
    ∀ (l : List Nat), (∀ x ∈ l, x ∈ ids) →
      (ids.map (fun i => (l.filter (fun x => x == i)).length)).sum =
        l.length := by
  intro l
  induction l with
  | nil =>
    intro _
    apply List.sum_eq_zero
    intro x hx
    rcases List.mem_map.mp hx with ⟨i, _, rfl⟩
    rfl
  | cons a t ih =>
    intro hsub
    have hpt : (fun i => (((a :: t).filter (fun x => x == i)).length : Nat)) =
        (fun i => (if a = i then 1 else 0) +
          ((t.filter (fun x => x == i)).length : Nat)) := by
      funext i
      by_cases hai : a = i
      · subst hai
        simp [List.filter_cons]
        omega
      · have hbe : (a == i) = false := beq_eq_false_iff_ne.mpr hai
        simp [List.filter_cons, hbe, hai]
    rw [hpt, List.sum_map_add, sum_indicator_one a ids hnd (hsub a (List.mem_cons_self a t)),
      ih (fun x hx => hsub x (List.mem_cons_of_mem a hx))]
    simp [Nat.add_comm]

/-- Helper: the per-option count equals the count of the option id among
the option ids of the poll's live vote rows. -/
theorem option_vote_count_as_filter (s : SqlState) (p i : Nat) :
    option_vote_count s p i =
      (((pollVotes s p).map SqlVote.optionId).filter
        (fun x => x == i)).length := by
  rw [List.filter_map, List.length_map]
  unfold pollVotes
  rw [List.filter_filter]
  unfold option_vote_count
  congr 1
  congr 1
  funext w
  exact Bool.and_comm _ _

/-- C6: for every poll, the total reported by the tally of
`get_poll_with_options` is the count of all live vote rows of the poll,
and the per-option counts sum to that total — provided the poll's option
ids are distinct (they are primary keys) and every vote row of the poll
references an option of the poll (the cross-entity check `record_vote`
enforces before insert). -/
theorem C6_tally_sums (s : SqlState) (p : Nat)
    (hnd : ((pollOptionRows s p).map SqlOption.id).Nodup)
    (hbelong : ∀ w ∈ s.votes, w.pollId = p →
      optionBelongs s p w.optionId = true) :
    ((per_option_counts s p).map Prod.snd).sum = total_votes s p ∧
    total_votes s p = (s.votes.filter (fun w => w.pollId == p)).length := by
  refine ⟨?_, rfl⟩
  have h3 : ∀ x ∈ (pollVotes s p).map SqlVote.optionId,
      x ∈ (pollOptionRows s p).map SqlOption.id := by
    intro x hx
    rcases List.mem_map.mp hx with ⟨w, hw, rfl⟩
    have hwp := List.mem_filter.mp hw
    have hb := hbelong w hwp.1 (by simpa using hwp.2)
    rcases List.any_eq_true.mp hb with ⟨q, hq, hpred⟩
    simp only [Bool.and_eq_true, beq_iff_eq] at hpred
    refine List.mem_map.mpr ⟨q, ?_, hpred.1⟩
    exact List.mem_filter.mpr ⟨hq, by simp [hpred.2]⟩
  calc ((per_option_counts s p).map Prod.snd).sum
      = ((pollOptionRows s p).map
          (fun q => option_vote_count s p q.id)).sum := by
        unfold per_option_counts
        rw [List.map_map]
        exact List.Perm.sum_eq ((List.perm_insertionSort _ _).map _)
    _ = (((pollOptionRows s p).map SqlOption.id).map
          (fun i => (((pollVotes s p).map SqlVote.optionId).filter
            (fun x => x == i)).length)).sum := by
        rw [List.map_map]
        refine congrArg List.sum (List.map_congr_left ?_)
        intro q _
        exact option_vote_count_as_filter s p q.id
    _ = ((pollVotes s p).map SqlVote.optionId).length :=
        counts_partition _ hnd _ h3
    _ = total_votes s p := by
        rw [List.length_map]
        rfl

/-- C6 (witness): a concrete state with one two-option poll and three
vote rows — the per-option counts (2 and 1) sum to the total 3. -/
theorem C6_witness :
    ((per_option_counts ⟨[⟨1, .active, true, none⟩],
        [⟨10, 1, 0⟩, ⟨11, 1, 1⟩],
        [⟨1, 10, 5⟩, ⟨1, 11, 5⟩, ⟨1, 10, 6⟩]⟩ 1).map Prod.snd).sum =
      total_votes ⟨[⟨1, .active, true, none⟩],
        [⟨10, 1, 0⟩, ⟨11, 1, 1⟩],
        [⟨1, 10, 5⟩, ⟨1, 11, 5⟩, ⟨1, 10, 6⟩]⟩ 1 ∧
    total_votes ⟨[⟨1, .active, true, none⟩],
        [⟨10, 1, 0⟩, ⟨11, 1, 1⟩],
        [⟨1, 10, 5⟩, ⟨1, 11, 5⟩, ⟨1, 10, 6⟩]⟩ 1 =
      (([⟨1, 10, 5⟩, ⟨1, 11, 5⟩, ⟨1, 10, 6⟩] : List SqlVote).filter
        (fun w => w.pollId == 1)).length :=
  C6_tally_sums ⟨[⟨1, .active, true, none⟩],
      [⟨10, 1, 0⟩, ⟨11, 1, 1⟩],
      [⟨1, 10, 5⟩, ⟨1, 11, 5⟩, ⟨1, 10, 6⟩]⟩ 1 (by decide)
    (by decide)
